import Mathlib

/-
Verification of the in-process rendezvous synchronization provider
(`sync_inmem_provider.go`, package rendezvous).

The Go data structures are shallowly embedded:
* `map[string]*PubSubSubscribers` and `map[peer.ID]ggio.Writer` become
  key-unique association lists;
* a `ggio.Writer` handle is identified by an opaque `WriterId`; an attempted
  `WriteMsg` call is recorded as a `WriteEvent`, and whether a given writer's
  write fails is supplied by an oracle `wfail : WriterId → Bool`;
* `time.Time` values are integers counting nanoseconds since the Unix epoch,
  so `UnixMilli` is integer division by 1 000 000;
* each `log.Errorf` call is recorded as a log entry (its static message text).

Operations run atomically except where the Go code releases a lock in the
middle of an operation (the `Register` broadcast), which is modelled by an
explicit phase split.
-/

namespace Rendezvous

/-- A peer identity, as produced by `peer.ID.String()`. -/
abbrev PeerID := String

/-- An outbound `ggio.Writer` handle, identified by an opaque id. -/
abbrev WriterId := Nat

/-- `pb.RegistrationRecord`: `{Id, Addrs, Ns, Ttl}` where `Ttl` is an
absolute expiry timestamp in epoch milliseconds. -/
structure RegistrationRecord where
  id : String
  addrs : List (List Nat)
  ns : String
  ttl : Int
deriving Repr, DecidableEq

/-- `PubSubSubscribers`: one topic's subscriber map (`map[peer.ID]ggio.Writer`,
modelled as a key-unique association list) and cached last announcement. -/
structure PubSubSubscribers where
  subscribers : List (PeerID × WriterId)
  lastAnnouncement : Option RegistrationRecord
deriving Repr, DecidableEq

/-- `PubSub`: the topic registry `map[string]*PubSubSubscribers`. -/
structure PubSub where
  topics : List (String × PubSubSubscribers)
deriving Repr, DecidableEq

/-- Association-list lookup, modelling Go map indexing `m[k]` (with the
`, ok` form when matched against `Option`). -/
def lookupKey {α : Type} (k : String) : List (String × α) → Option α
  | [] => none
  | (k1, v) :: rest => if k = k1 then some v else lookupKey k rest

/-- Association-list update, modelling Go map assignment `m[k] = v`:
replaces the binding if the key is present, otherwise appends it. -/
def setKey {α : Type} (k : String) (v : α) : List (String × α) → List (String × α)
  | [] => [(k, v)]
  | (k1, v1) :: rest => if k = k1 then (k, v) :: rest else (k1, v1) :: setKey k v rest

/-- Association-list removal, modelling Go `delete(m, k)`. -/
def removeKey {α : Type} (k : String) : List (String × α) → List (String × α)
  | [] => []
  | (k1, v1) :: rest => if k = k1 then removeKey k rest else (k1, v1) :: removeKey k rest

/-- The topic stored for namespace `ns`, when present. -/
def lookupTopic (ps : PubSub) (ns : String) : Option PubSubSubscribers :=
  lookupKey ns ps.topics

/-- The subscriber map of namespace `ns` (empty when the topic does not exist). -/
def subscribersOf (ps : PubSub) (ns : String) : List (PeerID × WriterId) :=
  match lookupKey ns ps.topics with
  | some t => t.subscribers
  | none => []

/-- The cached last announcement of namespace `ns` (none when the topic does
not exist). -/
def lastAnnouncementOf (ps : PubSub) (ns : String) : Option RegistrationRecord :=
  match lookupKey ns ps.topics with
  | some t => t.lastAnnouncement
  | none => none

/-- `(*PubSub).getOrCreateTopic`: under the registry guard, return the existing
topic for `ns`, or create and store a fresh one with an empty subscriber map
and no last announcement. Returns the topic together with the updated
registry. -/
def getOrCreateTopic (ps : PubSub) (ns : String) : PubSubSubscribers × PubSub :=
  match lookupKey ns ps.topics with
  | some subscribers => (subscribers, ps)
  | none =>
    let fresh : PubSubSubscribers := { subscribers := [], lastAnnouncement := none }
    (fresh, { topics := ps.topics ++ [(ns, fresh)] })

/-- `t.UnixMilli()` for a time `tNs` in nanoseconds since the Unix epoch. -/
def unixMilli (tNs : Int) : Int :=
  tNs / 1000000

/-- Reduction of an integer to its `int64` representative in
`[-2^63, 2^63)`: the value a Go `int64` multiplication that overflows
actually produces (two's-complement wraparound). -/
def wrapInt64 (x : Int) : Int :=
  (x + 9223372036854775808) % 18446744073709551616 - 9223372036854775808

/-- The `pb.RegistrationRecord` literal built inside `Register`:
`Id = pid.String()`, `Addrs = addrs`, `Ns = ns`, and
`Ttl = time.Now().Add(time.Duration(ttlAsSeconds) * time.Second).UnixMilli()`,
where `nowNs` is the nanosecond reading of `time.Now()`. The product
`time.Duration(ttlAsSeconds) * time.Second` is an `int64` multiplication and
wraps around on overflow, hence the `wrapInt64`. `Time.Add` and `UnixMilli`
are exact for an epoch-scale `time.Now()` base: their internal arithmetic is
on `int64` *seconds* (plus a nanosecond field), which cannot overflow or hit
`Add`'s saturation branch when at most `2^63` nanoseconds — about 292
years — are added to a present-day time. -/
def mkRegistrationRecord (nowNs : Int) (pid : PeerID) (ns : String)
    (addrs : List (List Nat)) (ttlAsSeconds : Int) : RegistrationRecord :=
  { id := pid
    addrs := addrs
    ns := ns
    ttl := unixMilli (nowNs + wrapInt64 (ttlAsSeconds * 1000000000)) }

/-- One attempted `WriteMsg` call: which writer was written to, and the
record that was sent. -/
structure WriteEvent where
  writer : WriterId
  msg : RegistrationRecord
deriving Repr, DecidableEq

/-- The static message text of the `log.Errorf` call in `Register`. -/
def notifyErrorLog : String := "unable to notify rendezvous data update"

/-- The static message text of the `log.Errorf` call in `handleStream`. -/
def announceErrorLog : String := "unable to write announcement"

/-- The `for _, stream := range toNotify` loop of `Register`: attempt a write
to every subscriber in order; a failed write (per the `wfail` oracle) adds a
log entry and the loop continues. Returns the attempted writes and the log. -/
def broadcast (wfail : WriterId → Bool) (rec : RegistrationRecord) :
    List (PeerID × WriterId) → List WriteEvent × List String
  | [] => ([], [])
  | (_, w) :: rest =>
    let tail := broadcast wfail rec rest
    (⟨w, rec⟩ :: tail.1, (if wfail w then [notifyErrorLog] else []) ++ tail.2)

/-- Result of one `Register` call: the updated registry, the writes the
broadcast attempted, and the error log entries. -/
structure RegisterResult where
  state : PubSub
  writes : List WriteEvent
  logs : List String
deriving Repr, DecidableEq

/-- `(*PubSub).Register(pid, ns, addrs, ttlAsSeconds, counter)`, run to
completion with no interleaving: get-or-create the topic, build the record,
store it as the last announcement under the topic guard, then broadcast to the
subscriber map (which, with no interleaved mutation, holds exactly the entries
present when the guard was released). `counter` is accepted and unused. -/
def Register (wfail : WriterId → Bool) (nowNs : Int) (ps : PubSub) (pid : PeerID)
    (ns : String) (addrs : List (List Nat)) (ttlAsSeconds : Int) (counter : Nat) :
    RegisterResult :=
  let gc := getOrCreateTopic ps ns
  let dataToSend := mkRegistrationRecord nowNs pid ns addrs ttlAsSeconds
  let topic : PubSubSubscribers := { gc.1 with lastAnnouncement := some dataToSend }
  let out := broadcast wfail dataToSend gc.1.subscribers
  { state := { topics := setKey ns topic gc.2.topics }
    writes := out.1
    logs := out.2 }

/-- `(*PubSub).Unregister`: an empty body (`// TODO: unsupported`). -/
def Unregister (ps : PubSub) (p : PeerID) (ns : String) : PubSub :=
  ps

/-- First half of `Register`, up to and including `subscribers.mu.Unlock()`:
get-or-create the topic, build the record, store it as the last announcement.
Returns the updated registry, the record, and the point-in-time contents of
the topic's subscriber map at the moment the guard is released (what
`toNotify` holds if read as a copy). In the Go code
`toNotify := subscribers.subscribers` binds `toNotify` to the same map object
as the topic's live subscriber map, so the pending broadcast retains a
reference to the topic, not a copy. -/
def registerPhase1 (nowNs : Int) (ps : PubSub) (pid : PeerID) (ns : String)
    (addrs : List (List Nat)) (ttlAsSeconds : Int) :
    PubSub × RegistrationRecord × List (PeerID × WriterId) :=
  let gc := getOrCreateTopic ps ns
  let dataToSend := mkRegistrationRecord nowNs pid ns addrs ttlAsSeconds
  let topic : PubSubSubscribers := { gc.1 with lastAnnouncement := some dataToSend }
  ({ topics := setKey ns topic gc.2.topics }, dataToSend, gc.1.subscribers)

/-- Second half of `Register` under the code's semantics: since `toNotify`
aliases the topic's live map, the broadcast loop iterates the subscriber map
of namespace `ns` as it stands in the registry at broadcast time. -/
def registerPhase2Code (wfail : WriterId → Bool) (ps : PubSub) (ns : String)
    (rec : RegistrationRecord) : List WriteEvent :=
  (broadcast wfail rec (subscribersOf ps ns)).1

/-- Modelled from the spec: the second half of Register as the spec describes
it — "takes a point-in-time copy of the current subscriber set" under the
guard and, outside the guard, "iterate the copy performing writes". The
broadcast runs over the snapshot taken when the guard was released, not over
the live map. -/
def registerPhase2Spec (wfail : WriterId → Bool)
    (snapshot : List (PeerID × WriterId)) (rec : RegistrationRecord) :
    List WriteEvent :=
  (broadcast wfail rec snapshot).1

/-- One inbound `pb.Message`, restricted to what `handleStream` inspects: a
`DISCOVER_SUBSCRIBE` request carrying a namespace, or any other message type. -/
inductive Message where
  | discoverSubscribe (ns : String)
  | other
deriving Repr, DecidableEq

/-- One session's local state: the `subscribedTopics` set
(`map[string]struct{}`, modelled as a duplicate-free list). -/
structure Session where
  subscribedTopics : List String
deriving Repr, DecidableEq

/-- Whether the session handler keeps reading or has terminated (returned,
resetting the stream). -/
inductive SessionStatus where
  | reading
  | terminated
deriving Repr, DecidableEq

/-- Result of one iteration of the `handleStream` loop. -/
structure StepResult where
  state : PubSub
  sess : Session
  status : SessionStatus
  writes : List WriteEvent
  logs : List String
deriving Repr, DecidableEq

/-- `subscribedTopics[ns] = struct{}{}`: set insertion. -/
def addJoined (sess : Session) (ns : String) : Session :=
  if ns ∈ sess.subscribedTopics then sess
  else { subscribedTopics := ns :: sess.subscribedTopics }

/-- One successful read in `handleStream`, dispatching message `req` from the
session whose remote peer is `remotePeer` and whose delimited writer is `w`:
non-subscribe messages are ignored; a `DISCOVER_SUBSCRIBE` for `ns`
get-or-creates the topic, is a no-op if the peer is already a member, and
otherwise adds the peer's writer to the subscriber map, records `ns` in the
session's joined set, and pushes the topic's last announcement (if any) to the
new subscriber, logging a failed write without terminating. -/
def handleMessage (wfail : WriterId → Bool) (ps : PubSub) (sess : Session)
    (remotePeer : PeerID) (w : WriterId) (req : Message) : StepResult :=
  match req with
  | .other => { state := ps, sess := sess, status := .reading, writes := [], logs := [] }
  | .discoverSubscribe ns =>
    let gc := getOrCreateTopic ps ns
    match lookupKey remotePeer gc.1.subscribers with
    | some _ =>
      { state := gc.2, sess := sess, status := .reading, writes := [], logs := [] }
    | none =>
      let topic : PubSubSubscribers :=
        { gc.1 with subscribers := setKey remotePeer w gc.1.subscribers }
      let ps2 : PubSub := { topics := setKey ns topic gc.2.topics }
      let sess2 := addJoined sess ns
      match gc.1.lastAnnouncement with
      | none =>
        { state := ps2, sess := sess2, status := .reading, writes := [], logs := [] }
      | some la =>
        { state := ps2, sess := sess2, status := .reading
          writes := [⟨w, la⟩]
          logs := if wfail w then [announceErrorLog] else [] }

/-- One iteration of the cleanup loop on read failure: get-or-create the
topic for `ns` and delete the session's peer from its subscriber map. -/
def removeFromTopic (ps : PubSub) (ns : String) (p : PeerID) : PubSub :=
  let gc := getOrCreateTopic ps ns
  let topic : PubSubSubscribers := { gc.1 with subscribers := removeKey p gc.1.subscribers }
  { topics := setKey ns topic gc.2.topics }

/-- The full cleanup loop: `for ns := range subscribedTopics { ... delete ... }`. -/
def cleanupTopics (p : PeerID) : List String → PubSub → PubSub
  | [], ps => ps
  | ns :: rest, ps => cleanupTopics p rest (removeFromTopic ps ns p)

/-- A failed `ReadMsg` in `handleStream`: remove the session's peer from every
topic in its joined set and terminate (the deferred `s.Reset()` runs). -/
def handleReadFailure (ps : PubSub) (sess : Session) (remotePeer : PeerID) : StepResult :=
  { state := cleanupTopics remotePeer sess.subscribedTopics ps
    sess := sess
    status := .terminated
    writes := []
    logs := [] }

/-- One iteration of the `handleStream` loop: `none` is a read failure,
`some req` a successfully read message. -/
def sessionStep (wfail : WriterId → Bool) (ps : PubSub) (sess : Session)
    (remotePeer : PeerID) (w : WriterId) (input : Option Message) : StepResult :=
  match input with
  | none => handleReadFailure ps sess remotePeer
  | some req => handleMessage wfail ps sess remotePeer w req

/-- A value handed to `encoding/json.Marshal`, restricted to the kinds this
code distinguishes: Go strings always encode successfully; values of an
unsupported kind (channels, functions, complex numbers, ...) make `Marshal`
return an `UnsupportedTypeError`. -/
inductive GoValue where
  | str (s : String)
  | unsupported (kind : String)
deriving Repr, DecidableEq

/-- Lower-case hexadecimal digit. -/
def hexDigit (n : Nat) : Char :=
  if n < 10 then Char.ofNat (48 + n) else Char.ofNat (87 + n)

/-- `encoding/json` string escaping (with its default HTML escaping): quote,
backslash, newline, carriage return and tab get short escapes; other control
characters and `<`, `>`, `&` become `\u00xx`; U+2028 and U+2029 are escaped;
all other characters pass through. -/
def jsonEscapeChar (c : Char) : String :=
  if c = '"' then "\\\""
  else if c = '\\' then "\\\\"
  else if c = '\n' then "\\n"
  else if c = '\r' then "\\r"
  else if c = '\t' then "\\t"
  else if c.toNat < 32 ∨ c = '<' ∨ c = '>' ∨ c = '&' then
    "\\u00" ++ String.singleton (hexDigit (c.toNat / 16)) ++ String.singleton (hexDigit (c.toNat % 16))
  else if c.toNat = 8232 ∨ c.toNat = 8233 then
    "\\u202" ++ String.singleton (hexDigit (c.toNat % 16))
  else String.singleton c

/-- A JSON string literal for `s`, per `encoding/json`. -/
def jsonQuote (s : String) : String :=
  "\"" ++ String.join (s.toList.map jsonEscapeChar) ++ "\""

/-- Marshal one value: a string kind always succeeds, an unsupported kind
fails with `json: unsupported type`. -/
def marshalValue : GoValue → Except String String
  | .str s => .ok (jsonQuote s)
  | .unsupported kind => .error ("json: unsupported type: " ++ kind)

/-- Marshal the fields of a struct in declaration order; the first failing
field aborts the marshal. -/
def marshalFields : List (String × GoValue) → Except String (List String)
  | [] => .ok []
  | (name, v) :: rest =>
    match marshalValue v with
    | .error e => .error e
    | .ok s =>
      match marshalFields rest with
      | .error e => .error e
      | .ok tail => .ok ((jsonQuote name ++ ":" ++ s) :: tail)

/-- `json.Marshal` on a struct value: marshal every field, then wrap the
comma-separated `"name":value` pairs in braces. -/
def jsonMarshalStruct (fields : List (String × GoValue)) : Except String String :=
  match marshalFields fields with
  | .error e => .error e
  | .ok parts => .ok ("\x7b" ++ String.intercalate "," parts ++ "\x7d")

/-- The `PubSubSubscriptionDetails` value `Subscribe` marshals: a struct of
two string fields, `PeerID` (the local host's identity) and `ChannelName`. -/
def subscriptionDetailsValue (peerId channelName : String) : List (String × GoValue) :=
  [("PeerID", .str peerId), ("ChannelName", .str channelName)]

/-- `(*PubSub).Subscribe(ns)`: marshal the subscription details of the local
host (`hostId`); on a marshal error return the wrapped error, otherwise the
serialized descriptor. The registry is returned unchanged — `Subscribe` never
touches it. -/
def Subscribe (hostId : PeerID) (ps : PubSub) (ns : String) :
    Except String String × PubSub :=
  match jsonMarshalStruct (subscriptionDetailsValue hostId ns) with
  | .error e => (.error ("unable to marshal subscription details: " ++ e), ps)
  | .ok details => (.ok details, ps)

/-- One atomic operation on the shared registry, for reasoning about
arbitrary operation sequences: a `Register` call, one dispatched
`DISCOVER_SUBSCRIBE` from some session, one ignored message, one session's
read-failure cleanup (with that session's joined set), or an `Unregister`. -/
inductive Op where
  | register (nowNs : Int) (pid : PeerID) (ns : String) (addrs : List (List Nat))
      (ttlAsSeconds : Int) (counter : Nat)
  | subscribe (remotePeer : PeerID) (w : WriterId) (ns : String)
  | otherMsg (remotePeer : PeerID) (w : WriterId)
  | sessionEnd (remotePeer : PeerID) (joined : List String)
  | unregister (p : PeerID) (ns : String)
deriving Repr, DecidableEq

/-- The registry after one operation (write outcomes do not feed back into
registry state, so the failure oracle is irrelevant here). -/
def applyOp (op : Op) (ps : PubSub) : PubSub :=
  match op with
  | .register nowNs pid ns addrs ttl counter =>
    (Register (fun _ => false) nowNs ps pid ns addrs ttl counter).state
  | .subscribe remotePeer w ns =>
    (handleMessage (fun _ => false) ps ⟨[]⟩ remotePeer w (.discoverSubscribe ns)).state
  | .otherMsg remotePeer w =>
    (handleMessage (fun _ => false) ps ⟨[]⟩ remotePeer w .other).state
  | .sessionEnd remotePeer joined =>
    (handleReadFailure ps ⟨joined⟩ remotePeer).state
  | .unregister p ns => Unregister ps p ns

/-- The registry after a sequence of operations, applied left to right. -/
def applyOps (ops : List Op) (ps : PubSub) : PubSub :=
  match ops with
  | [] => ps
  | op :: rest => applyOps rest (applyOp op ps)

/-- The record built by the most recent `Register` call for `ns` in `ops`,
if any. -/
def lastRegFor (ns : String) : List Op → Option RegistrationRecord
  | [] => none
  | op :: rest =>
    match lastRegFor ns rest with
    | some r => some r
    | none =>
      match op with
      | .register nowNs pid ns1 addrs ttl _ =>
        if ns1 = ns then some (mkRegistrationRecord nowNs pid ns1 addrs ttl) else none
      | _ => none

/-- Well-formedness mirroring Go map semantics: the registry has one entry
per namespace, and every topic's subscriber map has one entry per peer. -/
def WF (ps : PubSub) : Prop :=
  (ps.topics.map Prod.fst).Nodup ∧
  ∀ nst ∈ ps.topics, ((nst.2).subscribers.map Prod.fst).Nodup

instance : DecidablePred WF := fun ps => by
  unfold WF
  infer_instance

/-! ### Association-list lemmas -/

theorem lookupKey_setKey_self {α : Type} (k : String) (v : α) (l : List (String × α)) :
    lookupKey k (setKey k v l) = some v := by
  induction l with
  | nil => simp [lookupKey, setKey]
  | cons hd tl ih =>
    obtain ⟨k1, v1⟩ := hd
    by_cases h : k = k1
    · subst h
      simp [setKey, lookupKey]
    · simp [setKey, lookupKey, h, ih]

theorem lookupKey_setKey_ne {α : Type} {k k1 : String} (h : k1 ≠ k) (v : α)
    (l : List (String × α)) : lookupKey k1 (setKey k v l) = lookupKey k1 l := by
  induction l with
  | nil => simp [lookupKey, setKey, h]
  | cons hd tl ih =>
    obtain ⟨k2, v2⟩ := hd
    by_cases h2 : k = k2
    · subst h2
      simp [setKey, lookupKey, h]
    · by_cases h3 : k1 = k2 <;> simp [setKey, lookupKey, h2, h3, ih]

theorem lookupKey_removeKey_self {α : Type} (k : String) (l : List (String × α)) :
    lookupKey k (removeKey k l) = none := by
  induction l with
  | nil => simp [lookupKey, removeKey]
  | cons hd tl ih =>
    obtain ⟨k1, v1⟩ := hd
    by_cases h : k = k1
    · subst h
      simp [removeKey, lookupKey, ih]
    · simp [removeKey, lookupKey, h, ih]

theorem lookupKey_removeKey_ne {α : Type} {k k1 : String} (h : k1 ≠ k)
    (l : List (String × α)) : lookupKey k1 (removeKey k l) = lookupKey k1 l := by
  induction l with
  | nil => simp [removeKey]
  | cons hd tl ih =>
    obtain ⟨k2, v2⟩ := hd
    by_cases h2 : k = k2
    · subst h2
      simp [removeKey, lookupKey, h, ih]
    · by_cases h3 : k1 = k2 <;> simp [removeKey, lookupKey, h2, h3, ih]

theorem lookupKey_append {α : Type} (k : String) (l1 l2 : List (String × α)) :
    lookupKey k (l1 ++ l2) =
      match lookupKey k l1 with
      | some v => some v
      | none => lookupKey k l2 := by
  induction l1 with
  | nil => simp [lookupKey]
  | cons hd tl ih =>
    obtain ⟨k1, v1⟩ := hd
    by_cases h : k = k1 <;> simp [lookupKey, h, ih]

theorem mem_of_lookupKey_eq_some {α : Type} {k : String} {v : α}
    {l : List (String × α)} (h : lookupKey k l = some v) : (k, v) ∈ l := by
  induction l with
  | nil => simp [lookupKey] at h
  | cons hd tl ih =>
    obtain ⟨k1, v1⟩ := hd
    by_cases h1 : k = k1
    · subst h1
      simp [lookupKey] at h
      simp [h]
    · simp [lookupKey, h1] at h
      exact List.mem_cons_of_mem _ (ih h)

theorem lookupKey_eq_none_iff {α : Type} {k : String} {l : List (String × α)} :
    lookupKey k l = none ↔ k ∉ l.map Prod.fst := by
  induction l with
  | nil => simp [lookupKey]
  | cons hd tl ih =>
    obtain ⟨k1, v1⟩ := hd
    by_cases h : k = k1 <;> simp [lookupKey, h, ih]

theorem mem_setKey {α : Type} {x : String × α} {k : String} {v : α}
    {l : List (String × α)} (h : x ∈ setKey k v l) : x = (k, v) ∨ x ∈ l := by
  induction l with
  | nil =>
    simp [setKey] at h
    exact Or.inl h
  | cons hd tl ih =>
    obtain ⟨k1, v1⟩ := hd
    by_cases h1 : k = k1
    · subst h1
      simp [setKey] at h
      rcases h with h | h
      · exact Or.inl h
      · exact Or.inr (List.mem_cons_of_mem _ h)
    · simp [setKey, h1] at h
      rcases h with h | h
      · exact Or.inr (by simp [h])
      · rcases ih h with h2 | h2
        · exact Or.inl h2
        · exact Or.inr (List.mem_cons_of_mem _ h2)

theorem mem_keys_setKey {α : Type} {a k : String} {v : α} {l : List (String × α)} :
    a ∈ (setKey k v l).map Prod.fst ↔ a = k ∨ a ∈ l.map Prod.fst := by
  induction l with
  | nil => simp [setKey]
  | cons hd tl ih =>
    obtain ⟨k1, v1⟩ := hd
    by_cases h1 : k = k1
    · subst h1
      simp [setKey]
    · simp [setKey, h1, ih]
      tauto

theorem nodup_keys_setKey {α : Type} (k : String) (v : α) {l : List (String × α)}
    (h : (l.map Prod.fst).Nodup) : ((setKey k v l).map Prod.fst).Nodup := by
  induction l with
  | nil => simp [setKey]
  | cons hd tl ih =>
    obtain ⟨k1, v1⟩ := hd
    rw [List.map_cons, List.nodup_cons] at h
    by_cases h1 : k = k1
    · subst h1
      have hs : setKey k v ((k, v1) :: tl) = (k, v) :: tl := by simp [setKey]
      rw [hs, List.map_cons, List.nodup_cons]
      exact h
    · have hs : setKey k v ((k1, v1) :: tl) = (k1, v1) :: setKey k v tl := by
        simp [setKey, h1]
      rw [hs, List.map_cons, List.nodup_cons]
      refine ⟨fun hc => ?_, ih h.2⟩
      rcases mem_keys_setKey.1 hc with h2 | h2
      · exact h1 h2.symm
      · exact h.1 h2

theorem mem_removeKey {α : Type} {x : String × α} {k : String}
    {l : List (String × α)} (h : x ∈ removeKey k l) : x ∈ l := by
  induction l with
  | nil =>
    simp [removeKey] at h
  | cons hd tl ih =>
    obtain ⟨k1, v1⟩ := hd
    by_cases h1 : k = k1
    · subst h1
      simp [removeKey] at h
      exact List.mem_cons_of_mem _ (ih h)
    · simp [removeKey, h1] at h
      rcases h with h | h
      · simp [h]
      · exact List.mem_cons_of_mem _ (ih h)

theorem mem_keys_removeKey {α : Type} {a k : String} {l : List (String × α)}
    (h : a ∈ (removeKey k l).map Prod.fst) : a ∈ l.map Prod.fst := by
  rcases List.mem_map.1 h with ⟨x, hx, rfl⟩
  exact List.mem_map.2 ⟨x, mem_removeKey hx, rfl⟩

theorem nodup_keys_removeKey {α : Type} (k : String) {l : List (String × α)}
    (h : (l.map Prod.fst).Nodup) : ((removeKey k l).map Prod.fst).Nodup := by
  induction l with
  | nil => simp [removeKey]
  | cons hd tl ih =>
    obtain ⟨k1, v1⟩ := hd
    rw [List.map_cons, List.nodup_cons] at h
    by_cases h1 : k = k1
    · subst h1
      have hs : removeKey k ((k, v1) :: tl) = removeKey k tl := by simp [removeKey]
      rw [hs]
      exact ih h.2
    · have hs : removeKey k ((k1, v1) :: tl) = (k1, v1) :: removeKey k tl := by
        simp [removeKey, h1]
      rw [hs, List.map_cons, List.nodup_cons]
      exact ⟨fun hc => h.1 (mem_keys_removeKey hc), ih h.2⟩

/-! ### Registry-level lemmas -/

theorem getOrCreateTopic_subscribers (ps : PubSub) (ns : String) :
    (getOrCreateTopic ps ns).1.subscribers = subscribersOf ps ns := by
  unfold getOrCreateTopic subscribersOf
  cases h : lookupKey ns ps.topics <;> simp

theorem getOrCreateTopic_lastAnnouncement (ps : PubSub) (ns : String) :
    (getOrCreateTopic ps ns).1.lastAnnouncement = lastAnnouncementOf ps ns := by
  unfold getOrCreateTopic lastAnnouncementOf
  cases h : lookupKey ns ps.topics <;> simp

theorem getOrCreateTopic_lookup_self (ps : PubSub) (ns : String) :
    lookupKey ns (getOrCreateTopic ps ns).2.topics = some (getOrCreateTopic ps ns).1 := by
  unfold getOrCreateTopic
  cases h : lookupKey ns ps.topics with
  | some t => simpa using h
  | none =>
    simp only
    rw [lookupKey_append, h]
    simp [lookupKey]

theorem getOrCreateTopic_lookup_ne {ns1 ns : String} (h : ns1 ≠ ns) (ps : PubSub) :
    lookupKey ns1 (getOrCreateTopic ps ns).2.topics = lookupKey ns1 ps.topics := by
  unfold getOrCreateTopic
  cases h2 : lookupKey ns ps.topics with
  | some t => simp
  | none =>
    simp only
    rw [lookupKey_append]
    cases h3 : lookupKey ns1 ps.topics <;> simp [lookupKey, h]

theorem broadcast_writes (wfail : WriterId → Bool) (rec : RegistrationRecord)
    (subs : List (PeerID × WriterId)) :
    (broadcast wfail rec subs).1 = subs.map (fun s => ⟨s.2, rec⟩) := by
  induction subs with
  | nil => simp [broadcast]
  | cons hd tl ih =>
    obtain ⟨p, w⟩ := hd
    simp [broadcast, ih]

theorem broadcast_log_of_fail {wfail : WriterId → Bool} {rec : RegistrationRecord}
    {p : PeerID} {w : WriterId} {subs : List (PeerID × WriterId)}
    (hmem : (p, w) ∈ subs) (hf : wfail w = true) :
    notifyErrorLog ∈ (broadcast wfail rec subs).2 := by
  induction subs with
  | nil => simp at hmem
  | cons hd tl ih =>
    obtain ⟨p1, w1⟩ := hd
    simp only [broadcast, List.mem_append]
    rcases List.mem_cons.1 hmem with h | h
    · rw [Prod.mk.injEq] at h
      have hw : w1 = w := h.2.symm
      subst hw
      left
      simp [hf]
    · right
      exact ih h

theorem Register_state_lookup (wfail : WriterId → Bool) (nowNs : Int) (ps : PubSub)
    (pid : PeerID) (ns : String) (addrs : List (List Nat)) (ttl : Int) (counter : Nat)
    (ns1 : String) :
    lookupKey ns1 (Register wfail nowNs ps pid ns addrs ttl counter).state.topics =
      if ns1 = ns then
        some { subscribers := subscribersOf ps ns
               lastAnnouncement := some (mkRegistrationRecord nowNs pid ns addrs ttl) }
      else lookupKey ns1 ps.topics := by
  by_cases h : ns1 = ns
  · subst h
    simp [Register, lookupKey_setKey_self, getOrCreateTopic_subscribers]
  · simp [Register, h, lookupKey_setKey_ne h, getOrCreateTopic_lookup_ne h]

theorem Register_subscribersOf_self (wfail : WriterId → Bool) (nowNs : Int) (ps : PubSub)
    (pid : PeerID) (ns : String) (addrs : List (List Nat)) (ttl : Int) (counter : Nat) :
    subscribersOf (Register wfail nowNs ps pid ns addrs ttl counter).state ns =
      subscribersOf ps ns := by
  simp [subscribersOf, Register_state_lookup]

theorem Register_lastAnnouncementOf_self (wfail : WriterId → Bool) (nowNs : Int)
    (ps : PubSub) (pid : PeerID) (ns : String) (addrs : List (List Nat)) (ttl : Int)
    (counter : Nat) :
    lastAnnouncementOf (Register wfail nowNs ps pid ns addrs ttl counter).state ns =
      some (mkRegistrationRecord nowNs pid ns addrs ttl) := by
  simp [lastAnnouncementOf, Register_state_lookup]

theorem Register_lookup_ne {ns1 ns : String} (h : ns1 ≠ ns) (wfail : WriterId → Bool)
    (nowNs : Int) (ps : PubSub) (pid : PeerID) (addrs : List (List Nat)) (ttl : Int)
    (counter : Nat) :
    lookupKey ns1 (Register wfail nowNs ps pid ns addrs ttl counter).state.topics =
      lookupKey ns1 ps.topics := by
  simp [Register_state_lookup, h]

theorem Register_writes_eq (wfail : WriterId → Bool) (nowNs : Int) (ps : PubSub)
    (pid : PeerID) (ns : String) (addrs : List (List Nat)) (ttl : Int) (counter : Nat) :
    (Register wfail nowNs ps pid ns addrs ttl counter).writes =
      (subscribersOf ps ns).map
        (fun s => ⟨s.2, mkRegistrationRecord nowNs pid ns addrs ttl⟩) := by
  simp [Register, broadcast_writes, getOrCreateTopic_subscribers]

theorem Register_state_indep_wfail (wfail wfail2 : WriterId → Bool) (nowNs : Int)
    (ps : PubSub) (pid : PeerID) (ns : String) (addrs : List (List Nat)) (ttl : Int)
    (counter : Nat) :
    (Register wfail nowNs ps pid ns addrs ttl counter).state =
      (Register wfail2 nowNs ps pid ns addrs ttl counter).state := rfl

/-! ### Session-handler lemmas -/

theorem handleMessage_member (wfail : WriterId → Bool) (ps : PubSub) (sess : Session)
    (p : PeerID) (w : WriterId) (ns : String) {w0 : WriterId}
    (h : lookupKey p (subscribersOf ps ns) = some w0) :
    handleMessage wfail ps sess p w (.discoverSubscribe ns) =
      { state := ps, sess := sess, status := .reading, writes := [], logs := [] } := by
  cases hT : lookupKey ns ps.topics with
  | none =>
    rw [subscribersOf, hT] at h
    simp [lookupKey] at h
  | some t =>
    have hg : getOrCreateTopic ps ns = (t, ps) := by
      unfold getOrCreateTopic
      rw [hT]
    have hsub : subscribersOf ps ns = t.subscribers := by
      rw [subscribersOf, hT]
    rw [hsub] at h
    simp [handleMessage, hg, h]

theorem handleMessage_new_state (wfail : WriterId → Bool) (ps : PubSub) (sess : Session)
    (p : PeerID) (w : WriterId) (ns : String)
    (h : lookupKey p (subscribersOf ps ns) = none) :
    (handleMessage wfail ps sess p w (.discoverSubscribe ns)).state =
      { topics := setKey ns
          { subscribers := setKey p w (subscribersOf ps ns)
            lastAnnouncement := lastAnnouncementOf ps ns }
          (getOrCreateTopic ps ns).2.topics } := by
  have hs := getOrCreateTopic_subscribers ps ns
  have hl := getOrCreateTopic_lastAnnouncement ps ns
  unfold handleMessage
  simp only [hs, hl, h]
  cases hLA : lastAnnouncementOf ps ns <;> simp [hs, hl, hLA]

theorem handleMessage_new_rest (wfail : WriterId → Bool) (ps : PubSub) (sess : Session)
    (p : PeerID) (w : WriterId) (ns : String)
    (h : lookupKey p (subscribersOf ps ns) = none) :
    (handleMessage wfail ps sess p w (.discoverSubscribe ns)).sess = addJoined sess ns ∧
    (handleMessage wfail ps sess p w (.discoverSubscribe ns)).status = .reading ∧
    (handleMessage wfail ps sess p w (.discoverSubscribe ns)).writes =
      (match lastAnnouncementOf ps ns with
       | some la => [⟨w, la⟩]
       | none => []) ∧
    (handleMessage wfail ps sess p w (.discoverSubscribe ns)).logs =
      (match lastAnnouncementOf ps ns with
       | some _ => if wfail w then [announceErrorLog] else []
       | none => []) := by
  have hs := getOrCreateTopic_subscribers ps ns
  have hl := getOrCreateTopic_lastAnnouncement ps ns
  unfold handleMessage
  simp only [hs, hl, h]
  cases hLA : lastAnnouncementOf ps ns <;> simp [hLA]

theorem subscribersOf_handleMessage_new (wfail : WriterId → Bool) (ps : PubSub)
    (sess : Session) (p : PeerID) (w : WriterId) (ns ns1 : String)
    (h : lookupKey p (subscribersOf ps ns) = none) :
    subscribersOf (handleMessage wfail ps sess p w (.discoverSubscribe ns)).state ns1 =
      if ns1 = ns then setKey p w (subscribersOf ps ns) else subscribersOf ps ns1 := by
  rw [handleMessage_new_state wfail ps sess p w ns h]
  by_cases h1 : ns1 = ns
  · subst h1
    simp [subscribersOf, lookupKey_setKey_self]
  · rw [subscribersOf]
    simp only [h1, if_false]
    rw [lookupKey_setKey_ne h1, getOrCreateTopic_lookup_ne h1, subscribersOf]

theorem lastAnnouncementOf_handleMessage_new (wfail : WriterId → Bool) (ps : PubSub)
    (sess : Session) (p : PeerID) (w : WriterId) (ns ns1 : String)
    (h : lookupKey p (subscribersOf ps ns) = none) :
    lastAnnouncementOf (handleMessage wfail ps sess p w (.discoverSubscribe ns)).state ns1 =
      lastAnnouncementOf ps ns1 := by
  rw [handleMessage_new_state wfail ps sess p w ns h]
  by_cases h1 : ns1 = ns
  · subst h1
    simp [lastAnnouncementOf, lookupKey_setKey_self]
  · rw [lastAnnouncementOf]
    simp only
    rw [lookupKey_setKey_ne h1, getOrCreateTopic_lookup_ne h1, lastAnnouncementOf]

theorem handleMessage_other (wfail : WriterId → Bool) (ps : PubSub) (sess : Session)
    (p : PeerID) (w : WriterId) :
    handleMessage wfail ps sess p w .other =
      { state := ps, sess := sess, status := .reading, writes := [], logs := [] } := rfl

theorem removeFromTopic_lookup (ps : PubSub) (ns : String) (p : PeerID) (ns1 : String) :
    lookupKey ns1 (removeFromTopic ps ns p).topics =
      if ns1 = ns then
        some { subscribers := removeKey p (subscribersOf ps ns)
               lastAnnouncement := lastAnnouncementOf ps ns }
      else lookupKey ns1 ps.topics := by
  by_cases h : ns1 = ns
  · subst h
    simp [removeFromTopic, lookupKey_setKey_self, getOrCreateTopic_subscribers,
      getOrCreateTopic_lastAnnouncement]
  · simp only [removeFromTopic, h, if_false]
    rw [lookupKey_setKey_ne h, getOrCreateTopic_lookup_ne h]

theorem subscribersOf_removeFromTopic (ps : PubSub) (ns : String) (p : PeerID)
    (ns1 : String) :
    subscribersOf (removeFromTopic ps ns p) ns1 =
      if ns1 = ns then removeKey p (subscribersOf ps ns) else subscribersOf ps ns1 := by
  rw [subscribersOf, removeFromTopic_lookup]
  by_cases h : ns1 = ns <;> simp [h, subscribersOf]

theorem lastAnnouncementOf_removeFromTopic (ps : PubSub) (ns : String) (p : PeerID)
    (ns1 : String) :
    lastAnnouncementOf (removeFromTopic ps ns p) ns1 = lastAnnouncementOf ps ns1 := by
  rw [lastAnnouncementOf, removeFromTopic_lookup]
  by_cases h : ns1 = ns <;> simp [h, lastAnnouncementOf]

theorem cleanupTopics_self_lookup (p : PeerID) (joined : List String) (ps : PubSub)
    (ns : String) :
    lookupKey p (subscribersOf (cleanupTopics p joined ps) ns) =
      if ns ∈ joined then none else lookupKey p (subscribersOf ps ns) := by
  induction joined generalizing ps with
  | nil => simp [cleanupTopics]
  | cons ns0 rest ih =>
    rw [cleanupTopics, ih]
    by_cases hr : ns ∈ rest
    · simp [hr]
    · by_cases h0 : ns = ns0
      · subst h0
        simp [hr, subscribersOf_removeFromTopic, lookupKey_removeKey_self]
      · simp [hr, h0, subscribersOf_removeFromTopic]

theorem cleanupTopics_lookup_notMem (p : PeerID) (joined : List String) (ps : PubSub)
    {ns : String} (h : ns ∉ joined) :
    lookupKey ns (cleanupTopics p joined ps).topics = lookupKey ns ps.topics := by
  induction joined generalizing ps with
  | nil => simp [cleanupTopics]
  | cons ns0 rest ih =>
    rw [List.mem_cons] at h
    push_neg at h
    rw [cleanupTopics, ih (removeFromTopic ps ns0 p) h.2, removeFromTopic_lookup]
    simp [h.1]

theorem cleanupTopics_other_peer {q p : PeerID} (hq : q ≠ p) (joined : List String)
    (ps : PubSub) (ns : String) :
    lookupKey q (subscribersOf (cleanupTopics p joined ps) ns) =
      lookupKey q (subscribersOf ps ns) := by
  induction joined generalizing ps with
  | nil => simp [cleanupTopics]
  | cons ns0 rest ih =>
    rw [cleanupTopics, ih, subscribersOf_removeFromTopic]
    by_cases h0 : ns = ns0
    · simp [h0, lookupKey_removeKey_ne hq]
    · simp [h0]

theorem cleanupTopics_lastAnnouncement (p : PeerID) (joined : List String) (ps : PubSub)
    (ns : String) :
    lastAnnouncementOf (cleanupTopics p joined ps) ns = lastAnnouncementOf ps ns := by
  induction joined generalizing ps with
  | nil => simp [cleanupTopics]
  | cons ns0 rest ih =>
    rw [cleanupTopics, ih, lastAnnouncementOf_removeFromTopic]

theorem handleMessage_new_lookup (wfail : WriterId → Bool) (ps : PubSub) (sess : Session)
    (p : PeerID) (w : WriterId) (ns : String)
    (h : lookupKey p (subscribersOf ps ns) = none) (ns1 : String) :
    lookupKey ns1 (handleMessage wfail ps sess p w (.discoverSubscribe ns)).state.topics =
      if ns1 = ns then
        some { subscribers := setKey p w (subscribersOf ps ns)
               lastAnnouncement := lastAnnouncementOf ps ns }
      else lookupKey ns1 ps.topics := by
  rw [handleMessage_new_state wfail ps sess p w ns h]
  by_cases h1 : ns1 = ns
  · subst h1
    simp [lookupKey_setKey_self]
  · simp only [h1, if_false]
    rw [lookupKey_setKey_ne h1, getOrCreateTopic_lookup_ne h1]

/-! ### Preservation of the map well-formedness invariant -/

theorem WF_subscribersOf {ps : PubSub} (h : WF ps) (ns : String) :
    ((subscribersOf ps ns).map Prod.fst).Nodup := by
  rw [subscribersOf]
  cases hT : lookupKey ns ps.topics with
  | none => simp
  | some t => exact h.2 (ns, t) (mem_of_lookupKey_eq_some hT)

theorem WF_setTopic {ps : PubSub} (h : WF ps) {ns : String} {topic : PubSubSubscribers}
    (ht : (topic.subscribers.map Prod.fst).Nodup) :
    WF { topics := setKey ns topic ps.topics } := by
  constructor
  · exact nodup_keys_setKey ns topic h.1
  · intro nst hmem
    rcases mem_setKey hmem with h1 | h1
    · rw [h1]
      exact ht
    · exact h.2 nst h1

theorem WF_getOrCreateTopic {ps : PubSub} (h : WF ps) (ns : String) :
    WF (getOrCreateTopic ps ns).2 := by
  unfold getOrCreateTopic
  cases hT : lookupKey ns ps.topics with
  | some t => exact h
  | none =>
    constructor
    · simp only [List.map_append, List.nodup_append]
      refine ⟨h.1, by simp, ?_⟩
      intro a ha hb
      simp at hb
      rw [hb] at ha
      exact lookupKey_eq_none_iff.1 hT ha
    · intro nst hmem
      rcases List.mem_append.1 hmem with h1 | h1
      · exact h.2 nst h1
      · simp at h1
        rw [h1]
        simp

theorem WF_removeFromTopic {ps : PubSub} (h : WF ps) (ns : String) (p : PeerID) :
    WF (removeFromTopic ps ns p) := by
  rw [removeFromTopic]
  refine WF_setTopic (WF_getOrCreateTopic h ns) ?_
  simp only
  rw [getOrCreateTopic_subscribers]
  exact nodup_keys_removeKey p (WF_subscribersOf h ns)

theorem WF_cleanupTopics {ps : PubSub} (h : WF ps) (p : PeerID) (joined : List String) :
    WF (cleanupTopics p joined ps) := by
  induction joined generalizing ps with
  | nil => exact h
  | cons ns0 rest ih =>
    rw [cleanupTopics]
    exact ih (WF_removeFromTopic h ns0 p)

theorem WF_applyOp {ps : PubSub} (h : WF ps) (op : Op) : WF (applyOp op ps) := by
  cases op with
  | register nowNs pid ns addrs ttl counter =>
    show WF (Register _ _ _ _ _ _ _ _).state
    rw [Register]
    simp only
    refine WF_setTopic (WF_getOrCreateTopic h ns) ?_
    simp only
    rw [getOrCreateTopic_subscribers]
    exact WF_subscribersOf h ns
  | subscribe p w ns =>
    show WF (handleMessage _ _ _ _ _ _).state
    cases hm : lookupKey p (subscribersOf ps ns) with
    | some w0 =>
      rw [handleMessage_member _ _ _ _ _ _ hm]
      exact h
    | none =>
      rw [handleMessage_new_state _ _ _ _ _ _ hm]
      refine WF_setTopic (WF_getOrCreateTopic h ns) ?_
      simp only
      exact nodup_keys_setKey p w (WF_subscribersOf h ns)
  | otherMsg p w => exact h
  | sessionEnd p joined => exact WF_cleanupTopics h p joined
  | unregister p ns => exact h

theorem WF_applyOps {ps : PubSub} (h : WF ps) (ops : List Op) : WF (applyOps ops ps) := by
  induction ops generalizing ps with
  | nil => exact h
  | cons op rest ih =>
    rw [applyOps]
    exact ih (WF_applyOp h op)

theorem countP_le_one_of_nodup_keys {l : List (PeerID × WriterId)}
    (h : (l.map Prod.fst).Nodup) (p : PeerID) :
    (l.countP (fun s => s.1 == p)) ≤ 1 := by
  induction l with
  | nil => simp
  | cons hd tl ih =>
    obtain ⟨k, v⟩ := hd
    rw [List.map_cons, List.nodup_cons] at h
    by_cases hk : k = p
    · subst hk
      rw [List.countP_cons]
      simp only [beq_self_eq_true, if_pos]
      have hz : tl.countP (fun s => s.1 == k) = 0 := by
        rw [List.countP_eq_zero]
        intro x hx
        simp only [beq_iff_eq]
        intro hc
        exact h.1 (List.mem_map.2 ⟨x, hx, hc⟩)
      simp [hz]
    · rw [List.countP_cons]
      simp only [beq_iff_eq, hk]
      simpa using ih h.2

/-! ### Per-operation lemmas for sequences -/

theorem lastAnnouncementOf_applyOp (op : Op) (ps : PubSub) (ns : String) :
    lastAnnouncementOf (applyOp op ps) ns =
      match op with
      | .register nowNs pid ns1 addrs ttl _ =>
        if ns1 = ns then some (mkRegistrationRecord nowNs pid ns1 addrs ttl)
        else lastAnnouncementOf ps ns
      | _ => lastAnnouncementOf ps ns := by
  cases op with
  | register nowNs pid ns1 addrs ttl counter =>
    show lastAnnouncementOf (Register _ _ _ _ _ _ _ _).state ns = _
    by_cases h : ns1 = ns
    · rw [h]
      simp [Register_lastAnnouncementOf_self]
    · have hne : ns ≠ ns1 := fun hc => h hc.symm
      have hr := Register_lookup_ne hne (fun _ => false) nowNs ps pid addrs ttl counter
      simp [lastAnnouncementOf, hr, h]
  | subscribe p w ns1 =>
    show lastAnnouncementOf (handleMessage _ _ _ _ _ _).state ns = _
    cases hm : lookupKey p (subscribersOf ps ns1) with
    | some w0 =>
      rw [handleMessage_member _ _ _ _ _ _ hm]
    | none =>
      exact lastAnnouncementOf_handleMessage_new _ _ _ _ _ _ _ hm
  | otherMsg p w => rfl
  | sessionEnd p joined =>
    exact cleanupTopics_lastAnnouncement p joined ps ns
  | unregister p ns1 => rfl

theorem cleanupTopics_topic_persists (p : PeerID) (joined : List String) {ps : PubSub}
    {ns : String} (h : (lookupKey ns ps.topics).isSome = true) :
    (lookupKey ns (cleanupTopics p joined ps).topics).isSome = true := by
  induction joined generalizing ps with
  | nil => exact h
  | cons ns0 rest ih =>
    rw [cleanupTopics]
    refine ih ?_
    rw [removeFromTopic_lookup]
    by_cases h0 : ns = ns0 <;> simp [h0, h]

theorem topic_persists_applyOp (op : Op) {ps : PubSub} {ns : String}
    (h : (lookupKey ns ps.topics).isSome = true) :
    (lookupKey ns (applyOp op ps).topics).isSome = true := by
  cases op with
  | register nowNs pid ns1 addrs ttl counter =>
    show (lookupKey ns (Register _ _ _ _ _ _ _ _).state.topics).isSome = true
    rw [Register_state_lookup]
    by_cases h1 : ns = ns1 <;> simp [h1, h]
  | subscribe p w ns1 =>
    show (lookupKey ns (handleMessage _ _ _ _ _ _).state.topics).isSome = true
    cases hm : lookupKey p (subscribersOf ps ns1) with
    | some w0 =>
      rw [handleMessage_member _ _ _ _ _ _ hm]
      exact h
    | none =>
      rw [handleMessage_new_lookup _ _ _ _ _ _ hm]
      by_cases h1 : ns = ns1 <;> simp [h1, h]
  | otherMsg p w => exact h
  | sessionEnd p joined => exact cleanupTopics_topic_persists p joined h
  | unregister p ns1 => exact h

theorem getOrCreateTopic_of_lookup_some {ps : PubSub} {ns : String}
    {t : PubSubSubscribers} (h : lookupKey ns ps.topics = some t) :
    getOrCreateTopic ps ns = (t, ps) := by
  unfold getOrCreateTopic
  rw [h]

theorem wrapInt64_eq_self {x : Int} (hlo : -9223372036854775808 ≤ x)
    (hhi : x < 9223372036854775808) : wrapInt64 x = x := by
  unfold wrapInt64
  rw [Int.emod_eq_of_lt (by omega) (by omega)]
  omega

/-! ### The claims -/

/-- C2: when a session's read fails, its peer is removed from the subscriber
set of every topic in the session's joined set; every topic outside the
joined set is left entirely unchanged (so no subscriber entry of any other
topic is removed), entries of other peers are untouched everywhere, and the
session terminates. -/
theorem read_failure_cleanup_exact (ps : PubSub) (sess : Session) (p : PeerID) :
    (∀ ns, ns ∈ sess.subscribedTopics →
      lookupKey p (subscribersOf (handleReadFailure ps sess p).state ns) = none) ∧
    (∀ ns, ns ∉ sess.subscribedTopics →
      lookupKey ns (handleReadFailure ps sess p).state.topics = lookupKey ns ps.topics) ∧
    (∀ ns q, q ≠ p →
      lookupKey q (subscribersOf (handleReadFailure ps sess p).state ns) =
        lookupKey q (subscribersOf ps ns)) ∧
    (handleReadFailure ps sess p).status = .terminated := by
  refine ⟨fun ns h => ?_, fun ns h => ?_, fun ns q hq => ?_, rfl⟩
  · show lookupKey p (subscribersOf (cleanupTopics p sess.subscribedTopics ps) ns) = none
    rw [cleanupTopics_self_lookup]
    simp [h]
  · exact cleanupTopics_lookup_notMem p _ ps h
  · exact cleanupTopics_other_peer hq _ ps ns

/-- Witness for C2: a session of peer B that joined only "chat", in a registry
where B also appears under "other" and C is also subscribed to "chat". -/
theorem read_failure_cleanup_exact_witness :
    lookupKey "B"
      (subscribersOf
        (handleReadFailure
          ⟨[("chat", ⟨[("B", 7), ("C", 9)], none⟩), ("other", ⟨[("B", 3)], none⟩)]⟩
          ⟨["chat"]⟩ "B").state "chat") = none ∧
    lookupKey "other"
      (handleReadFailure
        ⟨[("chat", ⟨[("B", 7), ("C", 9)], none⟩), ("other", ⟨[("B", 3)], none⟩)]⟩
        ⟨["chat"]⟩ "B").state.topics =
      lookupKey "other"
        (PubSub.mk [("chat", ⟨[("B", 7), ("C", 9)], none⟩), ("other", ⟨[("B", 3)], none⟩)]).topics ∧
    lookupKey "C"
      (subscribersOf
        (handleReadFailure
          ⟨[("chat", ⟨[("B", 7), ("C", 9)], none⟩), ("other", ⟨[("B", 3)], none⟩)]⟩
          ⟨["chat"]⟩ "B").state "chat") =
      lookupKey "C"
        (subscribersOf
          (PubSub.mk [("chat", ⟨[("B", 7), ("C", 9)], none⟩), ("other", ⟨[("B", 3)], none⟩)])
          "chat") := by
  refine ⟨?_, ?_, ?_⟩
  · exact (read_failure_cleanup_exact
      ⟨[("chat", ⟨[("B", 7), ("C", 9)], none⟩), ("other", ⟨[("B", 3)], none⟩)]⟩
      ⟨["chat"]⟩ "B").1 "chat" (by decide)
  · exact (read_failure_cleanup_exact
      ⟨[("chat", ⟨[("B", 7), ("C", 9)], none⟩), ("other", ⟨[("B", 3)], none⟩)]⟩
      ⟨["chat"]⟩ "B").2.1 "other" (by decide)
  · exact (read_failure_cleanup_exact
      ⟨[("chat", ⟨[("B", 7), ("C", 9)], none⟩), ("other", ⟨[("B", 3)], none⟩)]⟩
      ⟨["chat"]⟩ "B").2.2.1 "chat" "C" (by decide)

/-- C6 (amended): for every `Register(identity, namespace, addresses,
ttlSeconds, counter)` call whose nanosecond product `ttlSeconds * 10^9` is
representable in `int64` — every `|ttlSeconds|` up to about `9.22 * 10^9`,
roughly 292 years — the record built carries the given identity, namespace
and address list, and an expiry equal to the call time plus `ttlSeconds`
seconds, in epoch milliseconds; `ttlSeconds = 0` yields an expiry equal to
the call time, and `Register` stores exactly this record as the topic's last
announcement. For larger `ttlSeconds` the `int64` Duration multiplication
wraps and the unrestricted claim fails (see the counterexample). -/
theorem register_record_fields (nowNs : Int) (pid : PeerID) (ns : String)
    (addrs : List (List Nat)) (ttl : Int) (wfail : WriterId → Bool) (ps : PubSub)
    (counter : Nat)
    (hlo : -9223372036854775808 ≤ ttl * 1000000000)
    (hhi : ttl * 1000000000 < 9223372036854775808) :
    (mkRegistrationRecord nowNs pid ns addrs ttl).id = pid ∧
    (mkRegistrationRecord nowNs pid ns addrs ttl).ns = ns ∧
    (mkRegistrationRecord nowNs pid ns addrs ttl).addrs = addrs ∧
    (mkRegistrationRecord nowNs pid ns addrs ttl).ttl = unixMilli nowNs + ttl * 1000 ∧
    (ttl = 0 → (mkRegistrationRecord nowNs pid ns addrs ttl).ttl = unixMilli nowNs) ∧
    lastAnnouncementOf (Register wfail nowNs ps pid ns addrs ttl counter).state ns =
      some (mkRegistrationRecord nowNs pid ns addrs ttl) := by
  have hms : (mkRegistrationRecord nowNs pid ns addrs ttl).ttl =
      unixMilli nowNs + ttl * 1000 := by
    show unixMilli (nowNs + wrapInt64 (ttl * 1000000000)) = unixMilli nowNs + ttl * 1000
    rw [wrapInt64_eq_self hlo hhi]
    have h9 : ttl * 1000000000 = ttl * 1000 * 1000000 := by ring
    rw [unixMilli, unixMilli, h9,
      Int.add_mul_ediv_right nowNs (ttl * 1000) (by norm_num : (1000000 : Int) ≠ 0)]
  refine ⟨rfl, rfl, rfl, hms, fun h0 => ?_, Register_lastAnnouncementOf_self ..⟩
  rw [hms, h0]
  ring

/-- C6 counterexample: at `ttlSeconds = 9223372037` the nanosecond product
exceeds `2^63 - 1`, so the `int64` Duration multiplication wraps to a large
negative duration; with call time 0 the code stores the negative expiry
`-9223372036710` ms instead of the claimed `0 + 9223372037 * 1000` ms. -/
theorem register_record_ttl_wrap_counterexample :
    (mkRegistrationRecord 0 "p1" "chat" [[1]] 9223372037).ttl = -9223372036710 ∧
    (mkRegistrationRecord 0 "p1" "chat" [[1]] 9223372037).ttl ≠
      unixMilli 0 + 9223372037 * 1000 := by
  constructor <;> decide

/-- Witness for C6: at `ttlSeconds = 0` the expiry equals the call time, and
at `ttlSeconds = 30` it is the call time plus 30 000 ms. -/
theorem register_record_fields_witness :
    (mkRegistrationRecord 5000000001 "p1" "chat" [[1]] 0).ttl = unixMilli 5000000001 ∧
    (mkRegistrationRecord 0 "p2" "chat" [[2]] 30).ttl = unixMilli 0 + 30 * 1000 :=
  ⟨(register_record_fields 5000000001 "p1" "chat" [[1]] 0 (fun _ => false) ⟨[]⟩ 1
      (by decide) (by decide)).2.2.2.2.1 rfl,
   (register_record_fields 0 "p2" "chat" [[2]] 30 (fun _ => false) ⟨[]⟩ 1
      (by decide) (by decide)).2.2.2.1⟩

/-- C7: `getOrCreateTopic` is idempotent — the first call on an unseen
namespace appends exactly one fresh topic (empty subscriber map, no last
announcement) leaving every other namespace's lookup unchanged, a second call
returns the identical topic and registry, a call on an existing namespace
returns the stored topic with the registry untouched — and no operation ever
deletes a topic from the registry. -/
theorem getOrCreateTopic_idempotent (ps : PubSub) (ns : String) :
    (getOrCreateTopic (getOrCreateTopic ps ns).2 ns).1 = (getOrCreateTopic ps ns).1 ∧
    (getOrCreateTopic (getOrCreateTopic ps ns).2 ns).2 = (getOrCreateTopic ps ns).2 ∧
    (lookupKey ns ps.topics = none →
      (getOrCreateTopic ps ns).1 = { subscribers := [], lastAnnouncement := none } ∧
      (getOrCreateTopic ps ns).2.topics =
        ps.topics ++ [(ns, { subscribers := [], lastAnnouncement := none })] ∧
      ∀ ns0, ns0 ≠ ns →
        lookupKey ns0 (getOrCreateTopic ps ns).2.topics = lookupKey ns0 ps.topics) ∧
    (∀ t, lookupKey ns ps.topics = some t →
      (getOrCreateTopic ps ns).1 = t ∧ (getOrCreateTopic ps ns).2 = ps) ∧
    (∀ op ps0 ns0, (lookupKey ns0 ps0.topics).isSome = true →
      (lookupKey ns0 (applyOp op ps0).topics).isSome = true) := by
  have h2 := getOrCreateTopic_of_lookup_some (getOrCreateTopic_lookup_self ps ns)
  refine ⟨by rw [h2], by rw [h2], fun h => ?_, fun t ht => ?_,
    fun op ps0 ns0 h => topic_persists_applyOp op h⟩
  · refine ⟨?_, ?_, fun ns0 h0 => getOrCreateTopic_lookup_ne h0 ps⟩
    · unfold getOrCreateTopic
      rw [h]
    · unfold getOrCreateTopic
      rw [h]
  · rw [getOrCreateTopic_of_lookup_some ht]
    exact ⟨rfl, rfl⟩

/-- Witness for C7: creating "chat" in the empty registry. -/
theorem getOrCreateTopic_idempotent_witness :
    (getOrCreateTopic (⟨[]⟩ : PubSub) "chat").1 =
      { subscribers := [], lastAnnouncement := none } ∧
    (lookupKey "chat" (applyOp (.unregister "B" "chat")
        (getOrCreateTopic (⟨[]⟩ : PubSub) "chat").2).topics).isSome = true :=
  ⟨((getOrCreateTopic_idempotent ⟨[]⟩ "chat").2.2.1 rfl).1,
   (getOrCreateTopic_idempotent ⟨[]⟩ "chat").2.2.2.2 (.unregister "B" "chat")
     (getOrCreateTopic (⟨[]⟩ : PubSub) "chat").2 "chat" (by decide)⟩

/-- C9: `Unregister` is a no-op on every input: the registry, every topic's
subscriber set and every topic's last announcement are unchanged. -/
theorem unregister_noop (ps : PubSub) (p : PeerID) (ns : String) :
    Unregister ps p ns = ps ∧
    (Unregister ps p ns).topics = ps.topics ∧
    (∀ ns0, subscribersOf (Unregister ps p ns) ns0 = subscribersOf ps ns0) ∧
    (∀ ns0, lastAnnouncementOf (Unregister ps p ns) ns0 = lastAnnouncementOf ps ns0) :=
  ⟨rfl, rfl, fun _ => rfl, fun _ => rfl⟩

/-- C3: a write failure to subscriber `(p, w)` during a `Register` broadcast
is logged; the broadcast still attempts a write to every subscriber in order,
whatever the failure oracle; the resulting registry state is independent of
write failures and keeps the subscriber set unchanged (so the failed
subscriber is not removed); and a later `Register` on the same namespace
again attempts delivery to the failed subscriber's writer. -/
theorem register_write_failure_isolated (wfail wfail2 : WriterId → Bool)
    (nowNs nowNs2 : Int) (ps : PubSub) (pid pid2 : PeerID) (ns : String)
    (addrs addrs2 : List (List Nat)) (ttl ttl2 : Int) (counter counter2 : Nat)
    (p : PeerID) (w : WriterId) (hmem : (p, w) ∈ subscribersOf ps ns) :
    (wfail w = true →
      notifyErrorLog ∈ (Register wfail nowNs ps pid ns addrs ttl counter).logs) ∧
    (Register wfail nowNs ps pid ns addrs ttl counter).writes =
      (subscribersOf ps ns).map
        (fun s => ⟨s.2, mkRegistrationRecord nowNs pid ns addrs ttl⟩) ∧
    subscribersOf (Register wfail nowNs ps pid ns addrs ttl counter).state ns =
      subscribersOf ps ns ∧
    (Register wfail nowNs ps pid ns addrs ttl counter).state =
      (Register (fun _ => false) nowNs ps pid ns addrs ttl counter).state ∧
    WriteEvent.mk w (mkRegistrationRecord nowNs2 pid2 ns addrs2 ttl2) ∈
      (Register wfail2 nowNs2 (Register wfail nowNs ps pid ns addrs ttl counter).state
        pid2 ns addrs2 ttl2 counter2).writes := by
  refine ⟨fun hf => ?_, Register_writes_eq .., Register_subscribersOf_self ..,
    Register_state_indep_wfail .., ?_⟩
  · have hlog : (Register wfail nowNs ps pid ns addrs ttl counter).logs =
        (broadcast wfail (mkRegistrationRecord nowNs pid ns addrs ttl)
          (subscribersOf ps ns)).2 := by
      rw [Register]
      simp only
      rw [getOrCreateTopic_subscribers]
    rw [hlog]
    exact broadcast_log_of_fail hmem hf
  · rw [Register_writes_eq]
    refine List.mem_map.2 ⟨(p, w), ?_, rfl⟩
    rw [Register_subscribersOf_self]
    exact hmem

/-- Witness for C3: writer 7 (peer B) fails while writer 9 (peer C) succeeds;
both writes are attempted, B stays subscribed, and a second broadcast again
writes to writer 7. -/
theorem register_write_failure_isolated_witness :
    notifyErrorLog ∈
      (Register (fun x => x == 7) 0
        ⟨[("chat", ⟨[("B", 7), ("C", 9)], none⟩)]⟩ "p1" "chat" [[1]] 30 1).logs ∧
    (Register (fun x => x == 7) 0
        ⟨[("chat", ⟨[("B", 7), ("C", 9)], none⟩)]⟩ "p1" "chat" [[1]] 30 1).writes =
      (subscribersOf (⟨[("chat", ⟨[("B", 7), ("C", 9)], none⟩)]⟩ : PubSub) "chat").map
        (fun s => ⟨s.2, mkRegistrationRecord 0 "p1" "chat" [[1]] 30⟩) ∧
    subscribersOf
        (Register (fun x => x == 7) 0
          ⟨[("chat", ⟨[("B", 7), ("C", 9)], none⟩)]⟩ "p1" "chat" [[1]] 30 1).state "chat" =
      subscribersOf (⟨[("chat", ⟨[("B", 7), ("C", 9)], none⟩)]⟩ : PubSub) "chat" ∧
    WriteEvent.mk 7 (mkRegistrationRecord 1 "p2" "chat" [[2]] 60) ∈
      (Register (fun _ => false) 1
        (Register (fun x => x == 7) 0
          ⟨[("chat", ⟨[("B", 7), ("C", 9)], none⟩)]⟩ "p1" "chat" [[1]] 30 1).state
        "p2" "chat" [[2]] 60 2).writes := by
  have h := register_write_failure_isolated (fun x => x == 7) (fun _ => false) 0 1
    ⟨[("chat", ⟨[("B", 7), ("C", 9)], none⟩)]⟩ "p1" "p2" "chat" [[1]] [[2]] 30 60 1 2
    "B" 7 (by decide)
  exact ⟨h.1 rfl, h.2.1, h.2.2.1, h.2.2.2.2⟩

/-- C4: a `DISCOVER_SUBSCRIBE` for a namespace the requesting peer is already
a member of changes nothing — not the registry, not the session's joined set —
performs no write and keeps the session reading; and starting from any
well-formed registry, after any sequence of operations every topic holds at
most one subscriber entry per peer. -/
theorem duplicate_subscribe_noop (wfail : WriterId → Bool) (ps : PubSub)
    (sess : Session) (p : PeerID) (w w0 : WriterId) (ns : String)
    (hmem : lookupKey p (subscribersOf ps ns) = some w0) :
    handleMessage wfail ps sess p w (.discoverSubscribe ns) =
      { state := ps, sess := sess, status := .reading, writes := [], logs := [] } ∧
    (∀ ops ps0 ns0 q, WF ps0 →
      ((subscribersOf (applyOps ops ps0) ns0).countP (fun s => s.1 == q)) ≤ 1) :=
  ⟨handleMessage_member wfail ps sess p w ns hmem,
   fun ops ps0 ns0 q h =>
     countP_le_one_of_nodup_keys (WF_subscribersOf (WF_applyOps h ops) ns0) q⟩

/-- Witness for C4: peer B, already subscribed to "chat" with writer 7,
subscribes again with writer 9 — a no-op; and after two subscribe requests
from B on the empty registry, "chat" holds one entry for B. -/
theorem duplicate_subscribe_noop_witness :
    handleMessage (fun _ => false) ⟨[("chat", ⟨[("B", 7)], none⟩)]⟩ ⟨["chat"]⟩
        "B" 9 (.discoverSubscribe "chat") =
      { state := ⟨[("chat", ⟨[("B", 7)], none⟩)]⟩, sess := ⟨["chat"]⟩,
        status := .reading, writes := [], logs := [] } ∧
    ((subscribersOf
        (applyOps [.subscribe "B" 7 "chat", .subscribe "B" 9 "chat"] ⟨[]⟩)
        "chat").countP (fun s => s.1 == "B")) ≤ 1 :=
  ⟨(duplicate_subscribe_noop (fun _ => false) ⟨[("chat", ⟨[("B", 7)], none⟩)]⟩
      ⟨["chat"]⟩ "B" 9 7 "chat" (by decide)).1,
   (duplicate_subscribe_noop (fun _ => false) ⟨[("chat", ⟨[("B", 7)], none⟩)]⟩
      ⟨["chat"]⟩ "B" 9 7 "chat" (by decide)).2
     [.subscribe "B" 7 "chat", .subscribe "B" 9 "chat"] ⟨[]⟩ "chat" "B" (by decide)⟩

/-- C5: when a `DISCOVER_SUBSCRIBE` adds a new subscriber to a topic whose
last announcement is set, exactly that cached record is written to the new
subscriber as a confirmation; a failed confirmation write is logged and the
session keeps reading (it is not terminated), with the peer subscribed. -/
theorem new_subscriber_receives_last_announcement (wfail : WriterId → Bool)
    (ps : PubSub) (sess : Session) (p : PeerID) (w : WriterId) (ns : String)
    (la : RegistrationRecord)
    (hnew : lookupKey p (subscribersOf ps ns) = none)
    (hla : lastAnnouncementOf ps ns = some la) :
    (handleMessage wfail ps sess p w (.discoverSubscribe ns)).writes = [⟨w, la⟩] ∧
    (handleMessage wfail ps sess p w (.discoverSubscribe ns)).status = .reading ∧
    (wfail w = true →
      (handleMessage wfail ps sess p w (.discoverSubscribe ns)).logs =
        [announceErrorLog]) ∧
    lookupKey p
      (subscribersOf (handleMessage wfail ps sess p w (.discoverSubscribe ns)).state ns) =
      some w := by
  have h := handleMessage_new_rest wfail ps sess p w ns hnew
  refine ⟨?_, h.2.1, fun hf => ?_, ?_⟩
  · rw [h.2.2.1, hla]
  · rw [h.2.2.2, hla]
    simp [hf]
  · rw [subscribersOf_handleMessage_new wfail ps sess p w ns ns hnew]
    simp [lookupKey_setKey_self]

/-- Witness for C5: a peer subscribing to "chat" after a cached announcement
exists receives it, even though its writer fails (logged, not fatal). -/
theorem new_subscriber_receives_last_announcement_witness :
    (handleMessage (fun _ => true) ⟨[("chat", ⟨[], some ⟨"p1", [[1]], "chat", 30000⟩⟩)]⟩
        ⟨[]⟩ "B" 7 (.discoverSubscribe "chat")).writes =
      [⟨7, ⟨"p1", [[1]], "chat", 30000⟩⟩] ∧
    (handleMessage (fun _ => true) ⟨[("chat", ⟨[], some ⟨"p1", [[1]], "chat", 30000⟩⟩)]⟩
        ⟨[]⟩ "B" 7 (.discoverSubscribe "chat")).status = .reading ∧
    (handleMessage (fun _ => true) ⟨[("chat", ⟨[], some ⟨"p1", [[1]], "chat", 30000⟩⟩)]⟩
        ⟨[]⟩ "B" 7 (.discoverSubscribe "chat")).logs = [announceErrorLog] := by
  have h := new_subscriber_receives_last_announcement (fun _ => true)
    ⟨[("chat", ⟨[], some ⟨"p1", [[1]], "chat", 30000⟩⟩)]⟩ ⟨[]⟩ "B" 7 "chat"
    ⟨"p1", [[1]], "chat", 30000⟩ (by decide) (by decide)
  exact ⟨h.1, h.2.1, h.2.2.1 rfl⟩

/-- C8: a topic's last announcement, once set by some operation, stays set
after every further operation; after any sequence of operations it equals the
record built by the most recent `Register` for that namespace (or the initial
value if the sequence contains none); and a `Register` on a namespace with no
subscribers still sets it while performing zero writes. -/
theorem lastAnnouncement_monotone_latest :
    (∀ op ps ns, (lastAnnouncementOf ps ns).isSome = true →
      (lastAnnouncementOf (applyOp op ps) ns).isSome = true) ∧
    (∀ ops ps0 ns,
      lastAnnouncementOf (applyOps ops ps0) ns =
        match lastRegFor ns ops with
        | some r => some r
        | none => lastAnnouncementOf ps0 ns) ∧
    (∀ wfail nowNs ps pid ns addrs ttl counter,
      subscribersOf ps ns = [] →
      (Register wfail nowNs ps pid ns addrs ttl counter).writes = [] ∧
      lastAnnouncementOf (Register wfail nowNs ps pid ns addrs ttl counter).state ns =
        some (mkRegistrationRecord nowNs pid ns addrs ttl)) := by
  refine ⟨fun op ps ns h => ?_, fun ops ps0 ns => ?_,
    fun wfail nowNs ps pid ns addrs ttl counter hempty => ?_⟩
  · rw [lastAnnouncementOf_applyOp]
    cases op with
    | register nowNs pid ns1 addrs ttl c =>
      simp only
      split
      · simp
      · exact h
    | subscribe p w ns1 => exact h
    | otherMsg p w => exact h
    | sessionEnd p joined => exact h
    | unregister p ns1 => exact h
  · induction ops generalizing ps0 with
    | nil => simp [applyOps, lastRegFor]
    | cons op rest ih =>
      simp only [applyOps, lastRegFor]
      rw [ih (applyOp op ps0)]
      cases hr : lastRegFor ns rest with
      | some r => simp
      | none =>
        simp only
        rw [lastAnnouncementOf_applyOp]
        cases op with
        | register nowNs1 pid1 ns1 addrs1 ttl1 c1 =>
          simp only
          by_cases h1 : ns1 = ns <;> simp [h1]
        | subscribe p w ns1 => rfl
        | otherMsg p w => rfl
        | sessionEnd p joined => rfl
        | unregister p ns1 => rfl
  · constructor
    · rw [Register_writes_eq, hempty]
      rfl
    · exact Register_lastAnnouncementOf_self ..

/-- Witness for C8: a subscribe leaves the cached announcement set, and a
`Register` into the empty registry sets it with zero writes. -/
theorem lastAnnouncement_monotone_latest_witness :
    (lastAnnouncementOf (applyOp (.subscribe "B" 7 "chat")
        ⟨[("chat", ⟨[], some ⟨"p1", [[1]], "chat", 30000⟩⟩)]⟩) "chat").isSome = true ∧
    (Register (fun _ => false) 0 ⟨[]⟩ "p1" "chat" [[1]] 30 1).writes = [] :=
  ⟨lastAnnouncement_monotone_latest.1 (.subscribe "B" 7 "chat")
      ⟨[("chat", ⟨[], some ⟨"p1", [[1]], "chat", 30000⟩⟩)]⟩ "chat" (by decide),
   (lastAnnouncement_monotone_latest.2.2 (fun _ => false) 0 ⟨[]⟩ "p1" "chat"
      [[1]] 30 1 rfl).1⟩

/-- C10: `Subscribe` never returns an error: marshalling the two-string
`PubSubSubscriptionDetails` struct always succeeds, so the serialization-error
branch is unreachable, the result is always the serialized `PeerID` +
`ChannelName` pair, and the registry is returned untouched. -/
theorem subscribe_never_fails (hostId : PeerID) (ps : PubSub) (ns : String) :
    (∃ s, jsonMarshalStruct (subscriptionDetailsValue hostId ns) = .ok s ∧
      Subscribe hostId ps ns = (.ok s, ps)) ∧
    (∀ e, (Subscribe hostId ps ns).1 ≠ .error e) ∧
    (Subscribe hostId ps ns).2 = ps := by
  have h : jsonMarshalStruct (subscriptionDetailsValue hostId ns) =
      .ok ("\x7b" ++ String.intercalate ","
        [jsonQuote "PeerID" ++ ":" ++ jsonQuote hostId,
         jsonQuote "ChannelName" ++ ":" ++ jsonQuote ns] ++ "\x7d") := rfl
  refine ⟨⟨_, h, ?_⟩, fun e => ?_, ?_⟩
  · simp [Subscribe, h]
  · simp [Subscribe, h]
  · simp [Subscribe, h]

/-- C1: the claim says the `Register` broadcast iterates an explicit
point-in-time copy of the subscriber map taken under the topic guard, so a
subscriber added after the snapshot receives no write from that `Register`
call. In the code, `toNotify := subscribers.subscribers` binds the live map —
a Go map assignment copies the reference, not the contents — so the broadcast
iterates the live map: starting from the empty registry, when peer B (writer
7) subscribes to "chat" between `Register`'s guard release and its broadcast
loop, the code's broadcast does write the record to writer 7, whereas the
spec-modelled snapshot broadcast performs no write at all. -/
theorem register_broadcast_iterates_live_map :
    registerPhase2Code (fun _ => false)
        (handleMessage (fun _ => false)
          (registerPhase1 0 ⟨[]⟩ "p1" "chat" [[1]] 30).1 ⟨[]⟩ "B" 7
          (.discoverSubscribe "chat")).state
        "chat" (registerPhase1 0 ⟨[]⟩ "p1" "chat" [[1]] 30).2.1 =
      [⟨7, (registerPhase1 0 ⟨[]⟩ "p1" "chat" [[1]] 30).2.1⟩] ∧
    registerPhase2Spec (fun _ => false)
        (registerPhase1 0 ⟨[]⟩ "p1" "chat" [[1]] 30).2.2
        (registerPhase1 0 ⟨[]⟩ "p1" "chat" [[1]] 30).2.1 = [] := by
  exact ⟨by decide, rfl⟩

end Rendezvous
